import Mathlib

/-!
Simple-File-System: `filesystem.c`

A shallow embedding of the in-memory file system of `src/filesystem.c`
(volume control block with a block bitmap, flat directory, open-file tables)
and the properties of `create`, `open_file` and `delete_file`.

Conventions of the embedding.

* The global variables `vcb`, `directory`, `system_open_table` and
  `per_process_open_table` form the state `FS`, passed explicitly.
* C `int` values are `Int`; the block-count computations are wrapped to
  32 bits (`wrap32`) and divided with truncation (`Int.tdiv`), as `/` does in C.
* A file name is a C string, modelled by the characters before its terminator;
  `strcmp(a, b) == 0` is equality and `strlen(a) == 0` is `a = ""`; the
  length of a name in `char`s is its number of bytes (`String.utf8ByteSize`).
* The field `char filename[50]` holds a name of at most 49 bytes and its
  terminator; `strcpy` of a longer name writes outside the field.
* An array is the list of its cells, and a loop over `i < NUM_BLOCKS` is a
  traversal of that list; in a machine state (`FS.WF`) each list has
  `NUM_BLOCKS` cells.
* An array access outside the array has no defined result in C; functions that
  can make one return `Option`, and `none` stands for that access.
-/

namespace SimpleFS

/-! ## Constants and data structures -/

/-- Number of blocks of the volume (`#define NUM_BLOCKS 512`). -/
def NUM_BLOCKS : Nat := 512

/-- Size of a block in bytes (`#define BLOCK_SIZE 2048`). -/
def BLOCK_SIZE : Int := 2048

/-- Capacity in bytes of the field `char filename[50]` of a directory entry. -/
def FILENAME_SIZE : Nat := 50

/-- Value of a C `int` expression after wrapping to 32 bits (two's complement). -/
def wrap32 (x : Int) : Int := (x + 2147483648) % 4294967296 - 2147483648

/-- Struct `VolumeControlBlock`; `bitmap` points to `NUM_BLOCKS` ints. -/
structure VolumeControlBlock where
  num_blocks : Int
  block_size : Int
  free_blocks : Int
  bitmap : List Int
  deriving DecidableEq

/-- Struct `DirectoryEntry`. -/
structure DirectoryEntry where
  filename : String
  start_block : Int
  file_size : Int
  deriving DecidableEq

/-- Struct `FileControlBlock`. -/
structure FileControlBlock where
  file_size : Int
  first_block : Int
  deriving DecidableEq

/-- The global variables of the program. -/
structure FS where
  vcb : VolumeControlBlock
  directory : List DirectoryEntry
  system_open_table : List FileControlBlock
  per_process_open_table : List FileControlBlock
  deriving DecidableEq

/-- A zero-initialised `DirectoryEntry` (static storage). -/
def DirectoryEntry.zero : DirectoryEntry := ⟨"", 0, 0⟩

/-- A zero-initialised `FileControlBlock` (static storage). -/
def FileControlBlock.zero : FileControlBlock := ⟨0, 0⟩

/-- Cell `directory[i]`. -/
def dir_at (directory : List DirectoryEntry) (i : Nat) : DirectoryEntry :=
  directory.getD i DirectoryEntry.zero

/-- Cell `vcb.bitmap[i]`. -/
def bit_at (bitmap : List Int) (i : Nat) : Int :=
  bitmap.getD i 0

/-! ## Operations -/

/-- State left by `initialize_file_system()`, the other globals being
zero-initialised. -/
def initialize_file_system : FS :=
  { vcb :=
      { num_blocks := NUM_BLOCKS
        block_size := BLOCK_SIZE
        free_blocks := (NUM_BLOCKS : Int) - 1
        bitmap := (List.replicate NUM_BLOCKS (0 : Int)).set 0 1 }
    directory := List.replicate NUM_BLOCKS DirectoryEntry.zero
    system_open_table := List.replicate NUM_BLOCKS FileControlBlock.zero
    per_process_open_table := List.replicate NUM_BLOCKS FileControlBlock.zero }

/-- The loop `for (i = ...; i < NUM_BLOCKS; i++) if (strcmp(directory[i].filename, filename) == 0) return i;`
over the remaining cells of `directory`, the first of them having index `i`:
the first matching index, if any. -/
def find_name (filename : String) : List DirectoryEntry → Nat → Option Nat
  | [], _ => none
  | e :: rest, i =>
    if e.filename = filename then some i
    else find_name filename rest (i + 1)

/-- The loop `for (i = ...; i < NUM_BLOCKS; i++) if (strlen(directory[i].filename) == 0) { empty_index = i; break; }`
over the remaining cells of `directory`, the first of them having index `i`:
the first empty slot, if any. -/
def find_empty : List DirectoryEntry → Nat → Option Nat
  | [], _ => none
  | e :: rest, i =>
    if e.filename.length = 0 then some i
    else find_empty rest (i + 1)

/-- The allocation loop of `create` (lines 153-159) over the remaining bitmap
cells: returns those cells after the loop and `blocks_allocated`. -/
def mark_blocks (blocks_needed : Int) : List Int → Int → List Int × Int
  | [], blocks_allocated => ([], blocks_allocated)
  | b :: rest, blocks_allocated =>
    if b = 0 then
      if blocks_allocated + 1 = blocks_needed then (1 :: rest, blocks_allocated + 1)
      else
        let r := mark_blocks blocks_needed rest (blocks_allocated + 1)
        (1 :: r.1, r.2)
    else
      let r := mark_blocks blocks_needed rest blocks_allocated
      (b :: r.1, r.2)

/-- Block count `(size + BLOCK_SIZE - 1) / BLOCK_SIZE` on C ints. -/
def blocks_for (size : Int) : Int :=
  Int.tdiv (wrap32 (size + BLOCK_SIZE - 1)) BLOCK_SIZE

/-- Function `create(filename, size)`: the returned int and the new state; `none` when
the entry is written outside `directory`, or when `strcpy` copies the name and
its terminator (`strlen + 1` bytes) past the `FILENAME_SIZE` bytes of the field
`filename`. The allocation loop starts at cell 1 of the bitmap. -/
def create (s : FS) (filename : String) (size : Int) : Option (Int × FS) :=
  match find_name filename s.directory 0 with
  | some _ => some (-1, s)
  | none =>
    let empty_index : Int :=
      match find_empty s.directory 0 with
      | some i => (i : Int)
      | none => -5
    if empty_index = -1 then some (-1, s)
    else
      let blocks_needed := blocks_for size
      if blocks_needed > s.vcb.free_blocks then some (-1, s)
      else
        let r := mark_blocks blocks_needed (s.vcb.bitmap.drop 1) 0
        if 0 ≤ empty_index ∧ empty_index < (NUM_BLOCKS : Int) ∧
            filename.utf8ByteSize + 1 ≤ FILENAME_SIZE then
          some (empty_index,
            { s with
              vcb := { s.vcb with
                bitmap := s.vcb.bitmap.take 1 ++ r.1
                free_blocks := wrap32 (s.vcb.free_blocks - r.2) }
              directory := s.directory.set empty_index.toNat
                { filename := filename
                  start_block := empty_index + 1
                  file_size := size } })
        else none

/-- Function `open_file(filename)`: the returned int; no global is written. -/
def open_file (s : FS) (filename : String) : Int × FS :=
  match find_name filename s.directory 0 with
  | some i => ((i : Int), s)
  | none => (-1, s)

/-- The loop `for (j = ...; j < start_block + blocks_to_free; j++) vcb.bitmap[j] = 0;`
with `fuel` iterations left, at index `j`; `none` when `j` is outside the bitmap. -/
def clear_blocks : Nat → Int → List Int → Option (List Int)
  | 0, _, bitmap => some bitmap
  | fuel + 1, j, bitmap =>
    if 0 ≤ j ∧ j < (NUM_BLOCKS : Int) then clear_blocks fuel (j + 1) (bitmap.set j.toNat 0)
    else none

/-- Function `delete_file(filename)`: the new state; `none` when a cell outside the
bitmap is written. -/
def delete_file (s : FS) (filename : String) : Option FS :=
  match find_name filename s.directory 0 with
  | none => some s
  | some i =>
    let e := dir_at s.directory i
    let start_block := e.start_block
    let file_size := e.file_size
    let blocks_to_free := blocks_for file_size
    match clear_blocks (wrap32 (start_block + blocks_to_free) - start_block).toNat
        start_block s.vcb.bitmap with
    | none => none
    | some bitmap =>
      some { s with
        directory := s.directory.set i { e with filename := "" }
        vcb := { s.vcb with
          bitmap := bitmap
          free_blocks := wrap32 (s.vcb.free_blocks + blocks_to_free) } }

/-! ## Sequences of calls -/

/-- A call of `create` or of `delete_file`. -/
inductive Op where
  | create (filename : String) (size : Int)
  | delete_file (filename : String)
  deriving DecidableEq

/-- The state after one call. -/
def step (s : FS) : Op → Option FS
  | Op.create filename size => (create s filename size).map Prod.snd
  | Op.delete_file filename => delete_file s filename

/-- The state after a sequence of calls. -/
def run (s : FS) : List Op → Option FS
  | [] => some s
  | op :: ops => (step s op).bind (fun s' => run s' ops)

/-- A call with a non-empty name that fits the `filename` field (at most 49
bytes) and, for `create`, a size of at least 1 that is an `int`. -/
def Op.admissible : Op → Prop
  | Op.create filename size =>
      1 ≤ filename.length ∧ filename.utf8ByteSize ≤ 49 ∧ 1 ≤ size ∧ size ≤ 2147483647
  | Op.delete_file filename => 1 ≤ filename.length ∧ filename.utf8ByteSize ≤ 49

instance (op : Op) : Decidable op.admissible := by
  cases op <;> unfold Op.admissible <;> infer_instance

/-- States reachable from `initialize_file_system` by `create` and
`delete_file` calls with non-empty names and sizes of at least 1. -/
def Reachable (s : FS) : Prop :=
  ∃ ops : List Op, (∀ op ∈ ops, op.admissible) ∧ run initialize_file_system ops = some s

/-! ## Vocabulary of the specification -/

/-- The string `name` is the filename of some directory slot. -/
def is_filename (s : FS) (name : String) : Prop :=
  ∃ e ∈ s.directory, e.filename = name

/-- The string `name` denotes a live entry: some slot has a non-empty filename equal to `name`. -/
def live (s : FS) (name : String) : Prop :=
  ∃ e ∈ s.directory, e.filename ≠ "" ∧ e.filename = name

/-- Some directory slot is empty. -/
def has_empty_slot (s : FS) : Prop :=
  ∃ e ∈ s.directory, e.filename = ""

instance (s : FS) (name : String) : Decidable (is_filename s name) := by
  unfold is_filename; infer_instance

instance (s : FS) (name : String) : Decidable (live s name) := by
  unfold live; infer_instance

instance (s : FS) : Decidable (has_empty_slot s) := by
  unfold has_empty_slot; infer_instance

/-- Number of blocks of a file of `size` bytes: `ceil(size / 2048)`. -/
def ceil_blocks (size : Int) : Int := ⌈(size : ℚ) / 2048⌉

/-- Number of clear bitmap cells among blocks `1 .. j - 1`. -/
def clear_before (bitmap : List Int) (j : Nat) : Nat :=
  ((bitmap.take j).drop 1).count 0

/-- A machine state: the arrays have `NUM_BLOCKS` cells and `free_blocks` is an `int`. -/
def FS.WF (s : FS) : Prop :=
  s.vcb.bitmap.length = NUM_BLOCKS ∧ s.directory.length = NUM_BLOCKS ∧
  s.system_open_table.length = NUM_BLOCKS ∧ s.per_process_open_table.length = NUM_BLOCKS ∧
  -2147483648 ≤ s.vcb.free_blocks ∧ s.vcb.free_blocks ≤ 2147483647

instance (s : FS) : Decidable s.WF := by
  unfold FS.WF; infer_instance

/-- Number of blocks held by the live entries: the sum of `ceil(file_size / 2048)`
over the slots with a non-empty filename. -/
def live_blocks (s : FS) : Int :=
  ((s.directory.filter (fun e => e.filename ≠ "")).map (fun e => ceil_blocks e.file_size)).sum

/-- The block ranges `[start_block, start_block + ceil(file_size / 2048))` of two
entries share the block `b`. -/
def ranges_share (e1 e2 : DirectoryEntry) (b : Int) : Prop :=
  e1.start_block ≤ b ∧ b < e1.start_block + ceil_blocks e1.file_size ∧
  e2.start_block ≤ b ∧ b < e2.start_block + ceil_blocks e2.file_size

/-- Effect of an allocating `create` on the bitmap and on `free_blocks`, with
`n = ceil(size / 2048)`: the call returns, the cells set are the clear cells
among blocks `1 .. 511` with fewer than `n` clear cells below them (the `n`
lowest-numbered ones), every other cell is unchanged, the number of clear cells
among blocks `1 .. 511` drops by `n`, and so does `free_blocks`. -/
def alloc_post (s : FS) (size : Int) (r : Option (Int × FS)) : Prop :=
  ∃ fid s1, r = some (fid, s1) ∧
    s1.vcb.bitmap.length = s.vcb.bitmap.length ∧
    (∀ j, bit_at s1.vcb.bitmap j =
      if 1 ≤ j ∧ j < NUM_BLOCKS ∧ bit_at s.vcb.bitmap j = 0 ∧
          (clear_before s.vcb.bitmap j : Int) < ceil_blocks size
      then 1 else bit_at s.vcb.bitmap j) ∧
    (clear_before s1.vcb.bitmap NUM_BLOCKS : Int) + ceil_blocks size =
      clear_before s.vcb.bitmap NUM_BLOCKS ∧
    s1.vcb.free_blocks = s.vcb.free_blocks - ceil_blocks size

/-! ## States used as examples -/

/-- The state after `create("file1", 17)` on the initial state (thread `p1`). -/
def st_file1 : FS :=
  { initialize_file_system with
    vcb :=
      { num_blocks := NUM_BLOCKS
        block_size := BLOCK_SIZE
        free_blocks := 510
        bitmap := [1, 1] ++ List.replicate 510 0 }
    directory := ⟨"file1", 1, 17⟩ :: List.replicate 511 DirectoryEntry.zero }

/-- A state with `free_blocks = 0`: one file holds the 511 blocks. -/
def st_exhausted : FS :=
  { initialize_file_system with
    vcb :=
      { num_blocks := NUM_BLOCKS
        block_size := BLOCK_SIZE
        free_blocks := 0
        bitmap := List.replicate 512 1 }
    directory := ⟨"big", 1, 1046528⟩ :: List.replicate 511 DirectoryEntry.zero }

/-- Calls that leave `free_blocks` one above the number of clear cells:
`b` is recorded at blocks 2-3 and `c` at block 3, so deleting `c` and then `b`
counts block 3 twice. -/
def ops_drift : List Op :=
  [Op.create "a" 1, Op.create "b" 2049, Op.create "c" 1, Op.delete_file "c", Op.delete_file "b"]

/-- The state after `ops_drift` followed by `create("d", 509 * 2048)`: every
bitmap cell is used and `free_blocks` is 1. -/
def st_drift_full : FS :=
  { initialize_file_system with
    vcb :=
      { num_blocks := NUM_BLOCKS
        block_size := BLOCK_SIZE
        free_blocks := 1
        bitmap := List.replicate 512 1 }
    directory := ⟨"a", 1, 1⟩ :: ⟨"d", 2, 1042432⟩ :: ⟨"", 3, 1⟩ ::
      List.replicate 509 DirectoryEntry.zero }

/-- The state after `ops_drift` followed by `create("d", 510 * 2048)`. -/
def st_drift_over : FS :=
  { initialize_file_system with
    vcb :=
      { num_blocks := NUM_BLOCKS
        block_size := BLOCK_SIZE
        free_blocks := 1
        bitmap := List.replicate 512 1 }
    directory := ⟨"a", 1, 1⟩ :: ⟨"d", 2, 1044480⟩ :: ⟨"", 3, 1⟩ ::
      List.replicate 509 DirectoryEntry.zero }

/-- The state after `create("a", 1)`, `create("b", 2049)`, `create("c", 1)`. -/
def st_abc : FS :=
  { initialize_file_system with
    vcb :=
      { num_blocks := NUM_BLOCKS
        block_size := BLOCK_SIZE
        free_blocks := 507
        bitmap := [1, 1, 1, 1, 1] ++ List.replicate 507 0 }
    directory := ⟨"a", 1, 1⟩ :: ⟨"b", 2, 2049⟩ :: ⟨"c", 3, 1⟩ ::
      List.replicate 509 DirectoryEntry.zero }

/-- The state after `create("a", 1)` and `delete_file("a")`: slot 0 is empty
and still records block 1 and size 1. -/
def st_deleted : FS :=
  { initialize_file_system with
    directory := ⟨"", 1, 1⟩ :: List.replicate 511 DirectoryEntry.zero }

/-- A two-letter name for slot `i`, distinct for distinct `i < 676`. -/
def slot_name (i : Nat) : String :=
  String.mk [Char.ofNat (97 + i / 26), Char.ofNat (97 + i % 26)]

/-- A state whose 512 slots all hold a 1-byte file, with one block free. -/
def st_full : FS :=
  { initialize_file_system with
    vcb :=
      { num_blocks := NUM_BLOCKS
        block_size := BLOCK_SIZE
        free_blocks := 1
        bitmap := List.replicate 511 1 ++ [0] }
    directory := (List.range NUM_BLOCKS).map (fun i => ⟨slot_name i, (i : Int) + 1, 1⟩) }

/-! ## The other calls -/

/-- Function `close_file(fid)`: it prints `directory[fid].start_block` and writes
no global; `none` when `directory[fid]` is outside the array. -/
def close_file (s : FS) (fid : Int) : Option FS :=
  if 0 ≤ fid ∧ fid < (NUM_BLOCKS : Int) then some s else none

/-- A call of `create`, `open_file`, `close_file` or `delete_file`, with any
argument. -/
inductive Call where
  | create (filename : String) (size : Int)
  | open_file (filename : String)
  | close_file (fid : Int)
  | delete_file (filename : String)
  deriving DecidableEq

/-- The state after one call. -/
def exec (s : FS) : Call → Option FS
  | Call.create filename size => (create s filename size).map Prod.snd
  | Call.open_file filename => some (open_file s filename).2
  | Call.close_file fid => close_file s fid
  | Call.delete_file filename => delete_file s filename

/-- The state after a sequence of calls. -/
def run_calls (s : FS) : List Call → Option FS
  | [] => some s
  | c :: cs => (exec s c).bind (fun s' => run_calls s' cs)

/-- States reachable from `initialize_file_system` by any sequence of `create`,
`open_file`, `close_file` and `delete_file` calls, each of which has a result. -/
def Reachable_any (s : FS) : Prop :=
  ∃ calls : List Call, run_calls initialize_file_system calls = some s

/-- An entry that `delete_file` can take without touching block 0: it is still
zero-initialised in `start_block` and `file_size`, or its `start_block` is at
least 1. -/
def start_ok (e : DirectoryEntry) : Prop :=
  (e.start_block = 0 ∧ e.file_size = 0) ∨ 1 ≤ e.start_block

/-- Block 0 is used and every directory entry is `start_ok`. -/
def block0_inv (s : FS) : Prop :=
  bit_at s.vcb.bitmap 0 = 1 ∧ ∀ e ∈ s.directory, start_ok e

/-- Cell `i` of an open-file table. -/
def fcb_at (table : List FileControlBlock) (i : Nat) : FileControlBlock :=
  table.getD i FileControlBlock.zero

/-- Number of bitmap cells that are 0 (free blocks). -/
def clear_count (bitmap : List Int) : Nat := bitmap.count 0

/-! ## More example states -/

/-- The state after `ops_drift`: blocks 0, 1 and 4 are used and `free_blocks`
is 510. -/
def st_drift : FS :=
  { initialize_file_system with
    vcb :=
      { num_blocks := NUM_BLOCKS
        block_size := BLOCK_SIZE
        free_blocks := 510
        bitmap := [1, 1, 0, 0, 1] ++ List.replicate 507 0 }
    directory := ⟨"a", 1, 1⟩ :: ⟨"", 2, 2049⟩ :: ⟨"", 3, 1⟩ ::
      List.replicate 509 DirectoryEntry.zero }

/-- The state after `create("a", 2049)`, `create("b", 1)`, `delete_file("b")`:
`a` is live at blocks 1-2 and block 2 is clear. -/
def st_hole : FS :=
  { initialize_file_system with
    vcb :=
      { num_blocks := NUM_BLOCKS
        block_size := BLOCK_SIZE
        free_blocks := 509
        bitmap := [1, 1, 0, 1] ++ List.replicate 508 0 }
    directory := ⟨"a", 1, 2049⟩ :: ⟨"", 2, 1⟩ :: List.replicate 510 DirectoryEntry.zero }

/-- Calls after which a live entry reaches past the last block: `ops_drift`,
then `create("d", 510 * 2048)`, `delete_file("d")`, `create("x", 511 * 2048)`. -/
def ops_past_end : List Op :=
  ops_drift ++ [Op.create "d" 1044480, Op.delete_file "d", Op.create "x" 1046528]

/-- The state after `ops_past_end`: `x` is live in slot 1 with `start_block = 2`
and 511 blocks. -/
def st_past_end : FS :=
  { initialize_file_system with
    vcb :=
      { num_blocks := NUM_BLOCKS
        block_size := BLOCK_SIZE
        free_blocks := 1
        bitmap := List.replicate 512 1 }
    directory := ⟨"a", 1, 1⟩ :: ⟨"x", 2, 1046528⟩ :: ⟨"", 3, 1⟩ ::
      List.replicate 509 DirectoryEntry.zero }

/-! ## Names that do not fit the field, and states for them -/

/-- A name of 49 bytes, the longest that fits `char filename[50]`. -/
def name49 : String := String.mk (List.replicate 49 'a')

/-- A name of 52 bytes. -/
def name52 : String := String.mk (List.replicate 52 'a')

/-- A name of 60 bytes. -/
def name60 : String := String.mk (List.replicate 60 'a')

/-- A name of 112 bytes. -/
def name112 : String := String.mk (List.replicate 112 'a')

/-- A name of 21 characters and 63 bytes (21 times U+20AC). -/
def name_euro21 : String := String.mk (List.replicate 21 (Char.ofNat 8364))

/-- A state in which slots 0 to 510 hold 1-byte files and slot 511 is the first
empty slot, with block 511 clear and one block free. -/
def st_last_slot : FS :=
  { initialize_file_system with
    vcb :=
      { num_blocks := NUM_BLOCKS
        block_size := BLOCK_SIZE
        free_blocks := 1
        bitmap := List.replicate 511 1 ++ [0] }
    directory := (List.range 511).map (fun i => ⟨slot_name i, (i : Int) + 1, 1⟩) ++
      [DirectoryEntry.zero] }

/-- The state after `create("p", 1)`, `create("q", 1)`, `delete_file("p")`: slot 0
is empty and `q` is live in slot 1 with `start_block = 2`. -/
def st_pq : FS :=
  { initialize_file_system with
    vcb :=
      { num_blocks := NUM_BLOCKS
        block_size := BLOCK_SIZE
        free_blocks := 510
        bitmap := [1, 0, 1] ++ List.replicate 509 0 }
    directory := ⟨"", 1, 1⟩ :: ⟨"q", 2, 1⟩ :: List.replicate 510 DirectoryEntry.zero }

/-! ## Lemmas on the loops -/

theorem find_name_eq_none_iff (name : String) (l : List DirectoryEntry) (i : Nat) :
    find_name name l i = none ↔ ∀ e ∈ l, e.filename ≠ name := by
  induction l generalizing i with
  | nil => simp [find_name]
  | cons e rest ih =>
    by_cases h : e.filename = name
    · simp [find_name, h]
    · simp [find_name, h, ih]

theorem wrap32_of_int (x : Int) (h1 : -2147483648 ≤ x) (h2 : x ≤ 2147483647) :
    wrap32 x = x := by
  unfold wrap32
  omega

theorem ceil_blocks_eq (size : Int) : ceil_blocks size = (size + 2047) / 2048 := by
  unfold ceil_blocks
  rw [Int.ceil_eq_iff]
  have h1 : 2048 * ((size + 2047) / 2048) ≤ size + 2047 := by omega
  have h2 : size + 2047 < 2048 * ((size + 2047) / 2048) + 2048 := by omega
  constructor
  · rw [lt_div_iff₀ (by norm_num)]
    have : (((size + 2047) / 2048 : Int) : ℚ) * 2048 < (size : ℚ) + 2048 := by
      exact_mod_cast (by omega : ((size + 2047) / 2048) * 2048 < size + 2048)
    linarith
  · rw [div_le_iff₀ (by norm_num)]
    exact_mod_cast (by omega : size ≤ ((size + 2047) / 2048) * 2048)

theorem blocks_for_eq_ceil (size : Int) (h1 : -2047 ≤ size) (h2 : size ≤ 2147481600) :
    blocks_for size = ceil_blocks size := by
  have e : size + BLOCK_SIZE - 1 = size + 2047 := by unfold BLOCK_SIZE; ring
  rw [ceil_blocks_eq, blocks_for, e, wrap32_of_int _ (by omega) (by omega),
    Int.tdiv_eq_ediv (by omega) (by decide)]
  rfl

theorem string_length_eq_zero (a : String) : a.length = 0 ↔ a = "" := by
  constructor
  · intro h
    cases a with
    | mk d =>
      have hd : d = [] := List.length_eq_zero.1 h
      subst hd
      rfl
  · intro h
    subst h
    rfl

theorem find_name_set (name : String) (a b : Int) (l : List DirectoryEntry) (i k : Nat)
    (h : find_name name l i = none) (hk : k < l.length) :
    find_name name (l.set k ⟨name, a, b⟩) i = some (i + k) := by
  induction l generalizing i k with
  | nil => simp at hk
  | cons e rest ih =>
    have he : e.filename ≠ name := (find_name_eq_none_iff name _ i).1 h e (by simp)
    have hr : find_name name rest (i + 1) = none := by
      simpa [find_name, he] using h
    cases k with
    | zero => simp [find_name]
    | succ k =>
      have hk2 : k < rest.length := by simpa using hk
      simp only [List.set_cons_succ, find_name, he, if_false]
      rw [ih (i + 1) k hr hk2]
      congr 1
      omega

theorem find_empty_bounds (l : List DirectoryEntry) (i j : Nat)
    (h : find_empty l i = some j) : i ≤ j ∧ j < i + l.length := by
  induction l generalizing i with
  | nil => simp [find_empty] at h
  | cons e rest ih =>
    by_cases he : e.filename.length = 0
    · simp [find_empty, he] at h
      subst h
      simp
    · simp only [find_empty, he, if_false] at h
      have := ih (i + 1) h
      simp only [List.length_cons]
      omega

theorem find_empty_eq_none_iff (l : List DirectoryEntry) (i : Nat) :
    find_empty l i = none ↔ ∀ e ∈ l, e.filename ≠ "" := by
  induction l generalizing i with
  | nil => simp [find_empty]
  | cons e rest ih =>
    by_cases h : e.filename.length = 0
    · have h2 : e.filename = "" := (string_length_eq_zero _).1 h
      simp [find_empty, h, h2]
    · have h2 : e.filename ≠ "" := fun hh => h (by simp [hh])
      simp [find_empty, h, h2, ih]

/-- What a successful `create` did: the name was in no slot, the entry went to
the first empty slot `i`, and the bitmap cells from 1 on went through the
allocation loop. -/
theorem create_success (s s1 : FS) (name : String) (size fid : Int)
    (h : create s name size = some (fid, s1)) (hfid : fid ≠ -1) :
    ∃ i : Nat, find_name name s.directory 0 = none ∧ find_empty s.directory 0 = some i ∧
      i < s.directory.length ∧ i < NUM_BLOCKS ∧ fid = (i : Int) ∧
      blocks_for size ≤ s.vcb.free_blocks ∧
      s1 = { s with
        vcb := { s.vcb with
          bitmap := s.vcb.bitmap.take 1 ++
            (mark_blocks (blocks_for size) (s.vcb.bitmap.drop 1) 0).1
          free_blocks := wrap32 (s.vcb.free_blocks -
            (mark_blocks (blocks_for size) (s.vcb.bitmap.drop 1) 0).2) }
        directory := s.directory.set i ⟨name, (i : Int) + 1, size⟩ } := by
  unfold create at h
  cases hf : find_name name s.directory 0 with
  | some j =>
    rw [hf] at h
    simp only [Option.some.injEq, Prod.mk.injEq] at h
    exact absurd h.1.symm hfid
  | none =>
    rw [hf] at h
    cases he : find_empty s.directory 0 with
    | none =>
      rw [he] at h
      simp only at h
      split at h
      · rename_i h5; exact absurd h5 (by decide)
      · split at h
        · simp only [Option.some.injEq, Prod.mk.injEq] at h
          exact absurd h.1.symm hfid
        · simp at h
    | some i =>
      rw [he] at h
      simp only at h
      have hb := find_empty_bounds _ _ _ he
      split at h
      · simp only [Option.some.injEq, Prod.mk.injEq] at h
        exact absurd h.1.symm hfid
      · split at h
        · simp only [Option.some.injEq, Prod.mk.injEq] at h
          exact absurd h.1.symm hfid
        · rename_i hnb
          split at h
          · rename_i hr
            simp only [Option.some.injEq, Prod.mk.injEq, Int.toNat_ofNat] at h
            refine ⟨i, rfl, rfl, by omega, ?_, h.1.symm, by omega, h.2.symm⟩
            have := hr.2.1
            exact_mod_cast this
          · simp at h

/-- C1. Uniqueness: when `name` is already the filename of some directory slot,
`create(name, size)` returns -1 for every size and leaves the whole state
(directory, bitmap, `free_blocks`) unchanged. -/
theorem create_existing_name (s : FS) (name : String) (size : Int)
    (h : is_filename s name) : create s name size = some (-1, s) := by
  obtain ⟨e, he, hn⟩ := h
  cases hf : find_name name s.directory 0 with
  | none => exact absurd hn ((find_name_eq_none_iff name s.directory 0).1 hf e he)
  | some i => simp [create, hf]

/-- C6. InsufficientSpace: for a name that is not live and a size with
`1 ≤ size ≤ 2^31 - 2048` whose block count `ceil(size / 2048)` exceeds
`free_blocks`, `create(name, size)` returns -1 and leaves the whole state
(directory, bitmap, `free_blocks`) unchanged; in particular a 1-block create
at `free_blocks = 0` fails without changing `free_blocks`. -/
theorem create_insufficient_space (s : FS) (name : String) (size : Int)
    (_hnl : ¬ live s name) (h1 : 1 ≤ size) (h2 : size ≤ 2147481600)
    (h : ceil_blocks size > s.vcb.free_blocks) :
    create s name size = some (-1, s) := by
  have hb : blocks_for size > s.vcb.free_blocks := by
    rw [blocks_for_eq_ceil size (by omega) h2]; exact h
  unfold create
  split
  · rfl
  · simp only [hb, if_true, ite_self]

/-- Open returns the creator's identifier when the copy of the name stays inside
the field: when `create(name, size)` with a non-empty name has a result (so the
name has at most 49 bytes), succeeds and returns `fid`, an immediately
following `open_file(name)` returns the same `fid`, and `open_file` leaves the
state (directory, bitmap, `free_blocks`) unchanged. -/
theorem open_file_after_create (s s1 : FS) (name : String) (size fid : Int)
    (_hne : name ≠ "") (h : create s name size = some (fid, s1)) (hfid : fid ≠ -1) :
    open_file s1 name = (fid, s1) := by
  obtain ⟨i, hf, _, hi, _, hfi, _, hs⟩ := create_success s s1 name size fid h hfid
  have hd : s1.directory = s.directory.set i ⟨name, (i : Int) + 1, size⟩ := by rw [hs]
  unfold open_file
  rw [hd, find_name_set name _ _ _ 0 i hf hi, hfi]
  simp


theorem mark_blocks_spec (needed : Int) (l : List Int) (a : Int) (m : Nat)
    (hm : needed = a + m) (hm1 : 1 ≤ m) :
    (mark_blocks needed l a).1.length = l.length ∧
    (mark_blocks needed l a).2 = a + (min m (l.count 0) : Nat) ∧
    (mark_blocks needed l a).1.count 0 + min m (l.count 0) = l.count 0 ∧
    ∀ k, (mark_blocks needed l a).1.getD k 0 =
      if l.getD k 0 = 0 ∧ k < l.length ∧ (l.take k).count 0 < m then 1 else l.getD k 0 := by
  induction l generalizing a m with
  | nil => simp [mark_blocks]
  | cons b rest ih =>
    by_cases hb : b = 0
    · subst hb
      by_cases hlast : a + 1 = needed
      · have hm2 : m = 1 := by omega
        subst hm2
        simp only [mark_blocks, if_true, hlast]
        refine ⟨by simp, ?_, ?_, ?_⟩
        · simp [← hlast]
        · simp
        · intro k
          cases k with
          | zero => simp
          | succ k => simp
      · have hm2 : 2 ≤ m := by omega
        obtain ⟨h1, h2, h3, h4⟩ := ih (a + 1) (m - 1) (by omega) (by omega)
        simp only [mark_blocks, if_true, hlast, if_false]
        refine ⟨by simp [h1], ?_, ?_, ?_⟩
        · rw [h2]
          simp only [List.count_cons_self]
          have : min m (List.count 0 rest + 1) = min (m - 1) (List.count 0 rest) + 1 := by omega
          rw [this]
          push_cast
          ring
        · simp only [List.count_cons_self]
          have hne : (0 : Int) ≠ 1 := by decide
          rw [List.count_cons_of_ne hne]
          omega
        · intro k
          cases k with
          | zero => simp; omega
          | succ k =>
            simp only [List.getD_cons_succ, h4, List.length_cons, List.take_succ_cons,
              List.count_cons_self]
            have : (List.count 0 (List.take k rest) + 1 < m) ↔
                (List.count 0 (List.take k rest) < m - 1) := by omega
            simp only [this, Nat.succ_lt_succ_iff]
    · obtain ⟨h1, h2, h3, h4⟩ := ih a m hm hm1
      simp only [mark_blocks, hb, if_false]
      have hb2 : (0 : Int) ≠ b := fun h => hb h.symm
      refine ⟨by simp [h1], ?_, ?_, ?_⟩
      · rw [h2, List.count_cons_of_ne hb2]
      · rw [List.count_cons_of_ne hb2, List.count_cons_of_ne hb2]
        exact h3
      · intro k
        cases k with
        | zero => simp [hb]
        | succ k =>
          simp only [List.getD_cons_succ, h4, List.length_cons, List.take_succ_cons,
            List.count_cons_of_ne hb2, Nat.succ_lt_succ_iff]


/-- The allocating path of `create`: the name is in no slot and fits the field,
slot `i` is the first empty one and the block count does not exceed
`free_blocks`. -/
theorem create_alloc (s : FS) (name : String) (size : Int) (i : Nat)
    (hf : find_name name s.directory 0 = none) (he : find_empty s.directory 0 = some i)
    (hi : i < NUM_BLOCKS) (hb : blocks_for size ≤ s.vcb.free_blocks)
    (hlen : name.utf8ByteSize ≤ 49) :
    create s name size = some ((i : Int),
      { s with
        vcb := { s.vcb with
          bitmap := s.vcb.bitmap.take 1 ++
            (mark_blocks (blocks_for size) (s.vcb.bitmap.drop 1) 0).1
          free_blocks := wrap32 (s.vcb.free_blocks -
            (mark_blocks (blocks_for size) (s.vcb.bitmap.drop 1) 0).2) }
        directory := s.directory.set i ⟨name, (i : Int) + 1, size⟩ }) := by
  have h1 : ¬ ((i : Int) = -1) := by omega
  have h2 : ¬ (blocks_for size > s.vcb.free_blocks) := by omega
  have h3 : 0 ≤ (i : Int) ∧ (i : Int) < (NUM_BLOCKS : Int) ∧
      name.utf8ByteSize + 1 ≤ FILENAME_SIZE :=
    ⟨by omega, by exact_mod_cast hi, by unfold FILENAME_SIZE; omega⟩
  unfold create
  rw [hf, he]
  simp only [h1, h2, h3, if_false, if_true, and_self, Int.toNat_ofNat]

/-- With no empty slot the directory-full return is not taken: `empty_index`
stays -5, and a request that passes the free-block test ends in a write to
`directory[-5]`. -/
theorem create_no_empty_slot (s : FS) (name : String) (size : Int)
    (hf : find_name name s.directory 0 = none) (he : ¬ has_empty_slot s)
    (hb : blocks_for size ≤ s.vcb.free_blocks) : create s name size = none := by
  have hn : find_empty s.directory 0 = none := by
    rw [find_empty_eq_none_iff]
    intro e hm h0
    exact he ⟨e, hm, h0⟩
  have h2 : ¬ (blocks_for size > s.vcb.free_blocks) := by omega
  have h5 : ¬ ((-5 : Int) = -1) := by decide
  have h6 : ¬ (0 ≤ (-5 : Int) ∧ (-5 : Int) < (NUM_BLOCKS : Int) ∧
      name.utf8ByteSize + 1 ≤ FILENAME_SIZE) := fun h => absurd h.1 (by decide)
  unfold create
  rw [hf, hn]
  simp only [h2, h5, h6, if_false]

/-- A name that is the filename of no slot is not found by `delete_file`, which
then changes nothing. -/
theorem delete_file_not_filename (s : FS) (name : String) (h : ¬ is_filename s name) :
    delete_file s name = some s := by
  have hf : find_name name s.directory 0 = none := by
    rw [find_name_eq_none_iff]
    intro e he hn
    exact h ⟨e, he, hn⟩
  unfold delete_file
  rw [hf]

theorem find_name_none_of_not_live (s : FS) (name : String) (hne : name ≠ "")
    (hnl : ¬ live s name) : find_name name s.directory 0 = none := by
  rw [find_name_eq_none_iff]
  intro e he hn
  exact hnl ⟨e, he, by rw [hn]; exact hne, hn⟩

theorem find_empty_some_of_slot (s : FS) (h : has_empty_slot s) :
    ∃ i, find_empty s.directory 0 = some i ∧ i < s.directory.length := by
  cases hf : find_empty s.directory 0 with
  | none =>
    obtain ⟨e, he, hn⟩ := h
    exact absurd hn ((find_empty_eq_none_iff _ 0).1 hf e he)
  | some i =>
    have := find_empty_bounds _ _ _ hf
    exact ⟨i, rfl, by omega⟩

theorem clear_before_cons (b0 : Int) (rest : List Int) (j : Nat) :
    clear_before (b0 :: rest) (j + 1) = (rest.take j).count 0 := by
  simp [clear_before]

/-- C5 (amended). Allocation amount and policy: for every machine state, every
non-empty name of at most 49 bytes that is not live while an empty slot exists,
and every size `s ≥ 1` with `n = ceil(s / 2048) ≤ free_blocks` and at least `n`
clear bitmap cells among blocks `1 .. 511`, `create(name, s)` sets exactly the
`n` lowest-numbered clear cells among blocks `1 .. 511`, leaves every other cell
unchanged and decreases `free_blocks` by exactly `n`; `s = 2048` needs 1 block
and `s = 2049` needs 2. -/
theorem create_allocates_lowest_clear (s : FS) (name : String) (size : Int)
    (hwf : s.WF) (hne : name ≠ "") (hlen : name.utf8ByteSize ≤ 49) (hnl : ¬ live s name)
    (hes : has_empty_slot s) (h1 : 1 ≤ size) (hfree : ceil_blocks size ≤ s.vcb.free_blocks)
    (hclear : ceil_blocks size ≤ clear_before s.vcb.bitmap NUM_BLOCKS) :
    alloc_post s size (create s name size) ∧ ceil_blocks 2048 = 1 ∧ ceil_blocks 2049 = 2 := by
  obtain ⟨hbl, hdl, _, _, hlo, hhi⟩ := hwf
  refine ⟨?_, by rw [ceil_blocks_eq]; decide, by rw [ceil_blocks_eq]; decide⟩
  have hf := find_name_none_of_not_live s name hne hnl
  obtain ⟨i, he, hi⟩ := find_empty_some_of_slot s hes
  rw [hdl] at hi
  -- the bitmap is cell 0 followed by 511 cells
  obtain ⟨b0, rest, hbm⟩ : ∃ b0 rest, s.vcb.bitmap = b0 :: rest := by
    cases hb : s.vcb.bitmap with
    | nil => rw [hb] at hbl; simp [NUM_BLOCKS] at hbl
    | cons b0 rest => exact ⟨b0, rest, rfl⟩
  have hrl : rest.length = 511 := by
    rw [hbm] at hbl; simp [NUM_BLOCKS] at hbl; exact hbl
  have hcb : clear_before s.vcb.bitmap NUM_BLOCKS = rest.count 0 := by
    rw [hbm]
    have : NUM_BLOCKS = 511 + 1 := rfl
    rw [this, clear_before_cons, ← hrl, List.take_length]
  rw [hcb] at hclear
  -- the block count as a natural number
  have hcl : (rest.count 0 : Int) ≤ 511 := by
    have := List.count_le_length (0 : Int) rest
    omega
  have hce := ceil_blocks_eq size
  have hsz : size ≤ 1046528 := by omega
  have hbf : blocks_for size = ceil_blocks size := blocks_for_eq_ceil size (by omega) (by omega)
  have hn1 : 1 ≤ ceil_blocks size := by omega
  obtain ⟨m, hm⟩ : ∃ m : Nat, ceil_blocks size = m := ⟨(ceil_blocks size).toNat, by omega⟩
  have hm1 : 1 ≤ m := by omega
  have hmc : m ≤ rest.count 0 := by omega
  obtain ⟨k1, k2, k3, k4⟩ := mark_blocks_spec (m : Int) rest 0 m (by omega) hm1
  have hmin : min m (rest.count 0) = m := by omega
  rw [hmin] at k2 k3
  have hN : NUM_BLOCKS = 511 + 1 := rfl
  rw [create_alloc s name size i hf he hi (by omega) hlen, hbf]
  unfold alloc_post
  rw [hm]
  refine ⟨_, _, rfl, ?_, ?_, ?_, ?_⟩
  · simp only [hbm, List.take_succ_cons, List.take_zero, List.drop_succ_cons, List.drop_zero,
      List.length_append, List.length_cons, List.length_nil, k1]
    omega
  · intro j
    simp only [hbm, List.take_succ_cons, List.take_zero, List.drop_succ_cons, List.drop_zero,
      List.singleton_append]
    cases j with
    | zero => simp [bit_at]
    | succ j =>
      have hx : bit_at (b0 :: (mark_blocks (m : Int) rest 0).1) (j + 1) =
          (mark_blocks (m : Int) rest 0).1.getD j 0 := rfl
      have hy : bit_at (b0 :: rest) (j + 1) = rest.getD j 0 := rfl
      rw [hx, hy, k4 j, clear_before_cons, hrl]
      have hc : (1 ≤ j + 1 ∧ j + 1 < NUM_BLOCKS ∧ rest.getD j 0 = 0 ∧
          ((List.count 0 (List.take j rest) : Nat) : Int) < (m : Int)) ↔
          (rest.getD j 0 = 0 ∧ j < 511 ∧ List.count 0 (List.take j rest) < m) := by
        rw [hN]
        constructor
        · rintro ⟨_, h2, h3, h4⟩
          exact ⟨h3, by omega, by exact_mod_cast h4⟩
        · rintro ⟨h2, h3, h4⟩
          exact ⟨by omega, by omega, h2, by exact_mod_cast h4⟩
      exact (if_congr hc rfl rfl).symm
  · simp only [hbm, List.take_succ_cons, List.take_zero, List.drop_succ_cons, List.drop_zero,
      List.singleton_append]
    rw [hN, clear_before_cons, clear_before_cons, ← hrl, List.take_length, ← k1,
      List.take_length]
    exact_mod_cast k3
  · simp only [hbm, List.drop_succ_cons, List.drop_zero, k2]
    rw [wrap32_of_int _ (by omega) (by omega)]
    simp


/-! ## The example states are the states the calls produce -/

set_option maxRecDepth 100000 in
theorem st_file1_eq : create initialize_file_system "file1" 17 = some (0, st_file1) := by
  decide!

set_option maxRecDepth 100000 in
theorem st_exhausted_eq :
    create initialize_file_system "big" 1046528 = some (0, st_exhausted) := by
  decide!

set_option maxRecDepth 100000 in
theorem reachable_st_drift_full : Reachable st_drift_full :=
  ⟨ops_drift ++ [Op.create "d" 1042432], by decide!, by decide!⟩

set_option maxRecDepth 100000 in
theorem reachable_st_drift_over : Reachable st_drift_over :=
  ⟨ops_drift ++ [Op.create "d" 1044480], by decide!, by decide!⟩

set_option maxRecDepth 100000 in
theorem reachable_st_abc : Reachable st_abc :=
  ⟨[Op.create "a" 1, Op.create "b" 2049, Op.create "c" 1], by decide!, by decide!⟩

set_option maxRecDepth 100000 in
theorem reachable_st_deleted : Reachable st_deleted :=
  ⟨[Op.create "a" 1, Op.delete_file "a"], by decide!, by decide!⟩

set_option maxRecDepth 100000 in
/-- The round trip of the scenario: on the initial state `create("f", 100)`
takes one block and `delete_file("f")` gives it back. -/
theorem round_trip_initial :
    ∃ s1 s2, create initialize_file_system "f" 100 = some (0, s1) ∧
      s1.vcb.free_blocks = 510 ∧ delete_file s1 "f" = some s2 ∧
      s2.vcb.free_blocks = initialize_file_system.vcb.free_blocks ∧
      s2.vcb.bitmap = initialize_file_system.vcb.bitmap ∧ open_file s2 "f" = (-1, s2) :=
  ⟨_, _, rfl, by decide!, rfl, by decide!, by decide!, by decide!⟩

/-! ## Witnesses and evaluations -/

set_option maxRecDepth 100000 in
/-- Witness for C1: `file1` exists in `st_file1`, and creating it again returns -1
with the state unchanged. -/
theorem create_existing_name_witness :
    is_filename st_file1 "file1" ∧ create st_file1 "file1" 17 = some (-1, st_file1) :=
  ⟨by decide!, create_existing_name st_file1 "file1" 17 (by decide!)⟩

set_option maxRecDepth 100000 in
/-- C2. Round trip fails on `free_blocks`: in the reachable state `st_drift_full`
(`free_blocks = 1`, no clear bitmap cell) `create("f", 1)` succeeds without
marking a block and leaves `free_blocks` at 1, and the following
`delete_file("f")` raises it to 2; `open_file("f")` then returns -1. -/
theorem round_trip_free_blocks_diverges :
    Reachable st_drift_full ∧ ¬ live st_drift_full "f" ∧
      st_drift_full.vcb.free_blocks = 1 ∧
      ∃ s1 s2, create st_drift_full "f" 1 = some (2, s1) ∧ s1.vcb.free_blocks = 1 ∧
        delete_file s1 "f" = some s2 ∧ s2.vcb.free_blocks = 2 ∧
        open_file s2 "f" = (-1, s2) :=
  ⟨reachable_st_drift_full, by decide!, by decide!, _, _, rfl, by decide!, rfl, by decide!,
    by decide!⟩

set_option maxRecDepth 100000 in
/-- C3. Block accounting breaks: in the reachable state `st_drift_over` the live
entries `a` (1 block) and `d` (510 blocks) and `free_blocks = 1` give
`free_blocks + live blocks + 1 = 513`, not 512. -/
theorem block_accounting_diverges :
    Reachable st_drift_over ∧
      st_drift_over.vcb.free_blocks + live_blocks st_drift_over + 1 = 513 :=
  ⟨reachable_st_drift_over, by decide!⟩

set_option maxRecDepth 100000 in
/-- C4. Block ranges overlap: in the reachable state `st_abc` the live entries of
slots 1 and 2 (`b`: blocks 2-3, `c`: block 3) both contain block 3. -/
theorem block_ranges_overlap :
    Reachable st_abc ∧ (dir_at st_abc.directory 1).filename ≠ "" ∧
      (dir_at st_abc.directory 2).filename ≠ "" ∧
      ranges_share (dir_at st_abc.directory 1) (dir_at st_abc.directory 2) 3 :=
  ⟨reachable_st_abc, by decide!, by decide!, by decide!, by decide!, by decide!, by decide!⟩

set_option maxRecDepth 100000 in
/-- C5, as stated, fails for the empty name and for a name that does not fit the
field: `""` is not live and an empty slot exists in the initial state, yet
`create("", 2048)` returns -1 and allocates nothing; and in `st_last_slot`,
where slot 511 is the first empty slot, `create` of the 60-byte `name60` copies
61 bytes from the last slot, past the end of `directory`, and has no result. -/
theorem create_empty_or_oversized_name_no_alloc :
    (initialize_file_system.WF ∧ ¬ live initialize_file_system "" ∧
      has_empty_slot initialize_file_system ∧
      ceil_blocks 2048 ≤ initialize_file_system.vcb.free_blocks ∧
      ceil_blocks 2048 ≤ clear_before initialize_file_system.vcb.bitmap NUM_BLOCKS ∧
      create initialize_file_system "" 2048 = some (-1, initialize_file_system) ∧
      ¬ alloc_post initialize_file_system 2048 (create initialize_file_system "" 2048)) ∧
    (st_last_slot.WF ∧ name60 ≠ "" ∧ name60.utf8ByteSize = 60 ∧ ¬ live st_last_slot name60 ∧
      has_empty_slot st_last_slot ∧ find_empty st_last_slot.directory 0 = some 511 ∧
      ceil_blocks 2048 ≤ st_last_slot.vcb.free_blocks ∧
      ceil_blocks 2048 ≤ clear_before st_last_slot.vcb.bitmap NUM_BLOCKS ∧
      create st_last_slot name60 2048 = none ∧
      ¬ alloc_post st_last_slot 2048 (create st_last_slot name60 2048)) := by
  have hc : create initialize_file_system "" 2048 = some (-1, initialize_file_system) := by
    decide!
  have hn : create st_last_slot name60 2048 = none := by decide!
  have h1 : ceil_blocks 2048 = 1 := by rw [ceil_blocks_eq]; decide
  refine ⟨⟨by decide!, by decide!, by decide!, by decide!, by decide!, hc, ?_⟩,
    ⟨by decide!, by decide!, by decide!, by decide!, by decide!, by decide!, by decide!,
      by decide!, hn, ?_⟩⟩
  · rintro ⟨fid, s1, h, _, _, _, hfree⟩
    rw [hc] at h
    simp only [Option.some.injEq, Prod.mk.injEq] at h
    rw [← h.2, h1] at hfree
    omega
  · rintro ⟨fid, s1, h, _⟩
    rw [hn] at h
    exact Option.noConfusion h

set_option maxRecDepth 100000 in
/-- Witness for C5 (amended): `create("file2", 2049)` on `st_file1`. -/
theorem create_allocates_lowest_clear_witness :
    st_file1.WF ∧ "file2".utf8ByteSize ≤ 49 ∧ ¬ live st_file1 "file2" ∧
      has_empty_slot st_file1 ∧ ceil_blocks 2049 ≤ st_file1.vcb.free_blocks ∧
      ceil_blocks 2049 ≤ clear_before st_file1.vcb.bitmap NUM_BLOCKS ∧
      (alloc_post st_file1 2049 (create st_file1 "file2" 2049) ∧
        ceil_blocks 2048 = 1 ∧ ceil_blocks 2049 = 2) :=
  ⟨by decide!, by decide!, by decide!, by decide!, by decide!, by decide!,
    create_allocates_lowest_clear st_file1 "file2" 2049 (by decide!) (by decide) (by decide!)
      (by decide!) (by decide!) (by decide) (by decide!) (by decide!)⟩

set_option maxRecDepth 100000 in
/-- Witness for C6: a 1-block create at `free_blocks = 0`. -/
theorem create_insufficient_space_witness :
    ¬ live st_exhausted "file2" ∧ st_exhausted.vcb.free_blocks = 0 ∧
      ceil_blocks 17 > st_exhausted.vcb.free_blocks ∧
      create st_exhausted "file2" 17 = some (-1, st_exhausted) :=
  ⟨by decide!, by decide!, by decide!,
    create_insufficient_space st_exhausted "file2" 17 (by decide!) (by decide) (by decide)
      (by decide!)⟩

set_option maxRecDepth 100000 in
/-- C7. A full directory is not rejected: in `st_full` no slot has an empty
filename and `new` is not live, yet `create("new", 1)` does not return -1 with
the state unchanged: `empty_index` keeps its initial value -5, the test
`empty_index == -1` fails, and the entry is written to `directory[-5]`. -/
theorem create_full_directory_not_rejected :
    st_full.WF ∧ ¬ has_empty_slot st_full ∧ ¬ live st_full "new" ∧
      find_empty st_full.directory 0 = none ∧
      create st_full "new" 1 = none ∧ create st_full "new" 1 ≠ some (-1, st_full) :=
  ⟨by decide!, by decide!, by decide!, by decide!, by decide!, by decide!⟩

set_option maxRecDepth 100000 in
/-- C8. Size 0 takes every free block: on the initial state (`f` not live, empty
slots, `free_blocks = 511`) `create("f", 0)` succeeds with identifier 0, marks
all 511 free blocks as used and leaves `free_blocks = 0`. -/
theorem create_size_zero_takes_all_blocks :
    ¬ live initialize_file_system "f" ∧ has_empty_slot initialize_file_system ∧
      initialize_file_system.vcb.free_blocks = 511 ∧ blocks_for 0 = 0 ∧
      ∃ s1, create initialize_file_system "f" 0 = some (0, s1) ∧
        s1.vcb.free_blocks = 0 ∧ s1.vcb.bitmap = List.replicate 512 1 :=
  ⟨by decide!, by decide!, by decide!, by decide!, _, rfl, by decide!, by decide!⟩

set_option maxRecDepth 100000 in
/-- C9. Deleting the empty name frees again: in the reachable state `st_deleted`
(after `create("a", 1)` and `delete_file("a")`) the empty string denotes no
live entry, yet `delete_file("")` matches the empty slot 0 and raises
`free_blocks` from 511 to 512. -/
theorem delete_empty_name_frees_again :
    Reachable st_deleted ∧ ¬ live st_deleted "" ∧ st_deleted.vcb.free_blocks = 511 ∧
      ∃ s1, delete_file st_deleted "" = some s1 ∧ s1.vcb.free_blocks = 512 :=
  ⟨reachable_st_deleted, by decide!, by decide!, _, rfl, by decide!⟩

set_option maxRecDepth 100000 in
/-- Example of `open_file` after `create`: `create("file1", 17)` on the initial state returns 0 and
`open_file("file1")` then returns 0. -/
theorem open_file_after_create_witness :
    create initialize_file_system "file1" 17 = some (0, st_file1) ∧
      open_file st_file1 "file1" = (0, st_file1) :=
  ⟨by decide!, open_file_after_create initialize_file_system st_file1 "file1" 17 0 (by decide)
    (by decide!) (by decide)⟩

/-! ## The directory after `create` -/

theorem blocks_for_le_ceil (size : Int) (h1 : 1 ≤ size) : blocks_for size ≤ ceil_blocks size := by
  have e : size + BLOCK_SIZE - 1 = size + 2047 := by unfold BLOCK_SIZE; ring
  rw [ceil_blocks_eq, blocks_for, e]
  have hw : wrap32 (size + 2047) ≤ size + 2047 := by unfold wrap32; omega
  by_cases h0 : 0 ≤ wrap32 (size + 2047)
  · rw [Int.tdiv_eq_ediv h0 (by decide)]
    unfold BLOCK_SIZE
    omega
  · have hneg : 0 ≤ -wrap32 (size + 2047) := by omega
    have h2 : 0 ≤ (-wrap32 (size + 2047)).tdiv BLOCK_SIZE := Int.tdiv_nonneg hneg (by decide)
    rw [Int.neg_tdiv] at h2
    omega

theorem find_empty_spec (l : List DirectoryEntry) (i j : Nat) (h : find_empty l i = some j) :
    (dir_at l (j - i)).filename = "" ∧ ∀ k, k < j - i → (dir_at l k).filename ≠ "" := by
  induction l generalizing i with
  | nil => simp [find_empty] at h
  | cons e rest ih =>
    by_cases he : e.filename.length = 0
    · simp only [find_empty, he, if_true, Option.some.injEq] at h
      subst h
      simp only [Nat.sub_self, dir_at, List.getD_cons_zero]
      exact ⟨(string_length_eq_zero _).1 he, fun k hk => absurd hk (Nat.not_lt_zero k)⟩
    · simp only [find_empty, he, if_false] at h
      have hb := find_empty_bounds rest (i + 1) j h
      obtain ⟨h1, h2⟩ := ih (i + 1) h
      have hj : j - i = (j - (i + 1)) + 1 := by omega
      rw [hj]
      refine ⟨by simpa [dir_at] using h1, ?_⟩
      intro k hk
      cases k with
      | zero =>
        simp only [dir_at, List.getD_cons_zero]
        exact fun hh => he ((string_length_eq_zero _).2 hh)
      | succ k =>
        have := h2 k (by omega)
        simpa [dir_at] using this

theorem dir_at_set (l : List DirectoryEntry) (i k : Nat) (x : DirectoryEntry) :
    dir_at (l.set i x) k = if k = i ∧ i < l.length then x else dir_at l k := by
  unfold dir_at
  rw [List.getD_eq_getElem?_getD, List.getD_eq_getElem?_getD, List.getElem?_set]
  by_cases hik : i = k
  · subst hik
    by_cases hl : i < l.length
    · simp [hl]
    · have hn : l[i]? = none := List.getElem?_eq_none (by omega)
      simp [hl, hn]
  · have : ¬ (k = i ∧ i < l.length) := fun h => hik h.1.symm
    simp [hik, this]

/-- C11. Create postcondition on the directory: for every machine state in which
a non-empty name of at most 49 characters (`char`s of the C string, i.e. bytes)
is not live, some slot is empty and `ceil(size / 2048) ≤ free_blocks` with
`size ≥ 1`, `create(name, size)` returns the lowest index `i` whose slot is
empty, and afterwards slot `i` holds `filename = name`, `file_size = size` and
`start_block = i + 1`, while every other directory slot is unchanged. -/
theorem create_directory_post (s : FS) (name : String) (size : Int)
    (hwf : s.WF) (hne : name ≠ "") (hlen : name.utf8ByteSize ≤ 49) (hnl : ¬ live s name)
    (hes : has_empty_slot s) (h1 : 1 ≤ size) (hfree : ceil_blocks size ≤ s.vcb.free_blocks) :
    ∃ (i : Nat) (s1 : FS), create s name size = some ((i : Int), s1) ∧ i < NUM_BLOCKS ∧
      (dir_at s.directory i).filename = "" ∧
      (∀ k, k < i → (dir_at s.directory k).filename ≠ "") ∧
      dir_at s1.directory i = ⟨name, (i : Int) + 1, size⟩ ∧
      (∀ k, k ≠ i → dir_at s1.directory k = dir_at s.directory k) ∧
      s1.directory.length = s.directory.length := by
  obtain ⟨_, hdl, _, _, _, _⟩ := hwf
  have hf := find_name_none_of_not_live s name hne hnl
  obtain ⟨i, he, hi⟩ := find_empty_some_of_slot s hes
  have hi2 : i < NUM_BLOCKS := by rw [← hdl]; exact hi
  have hb : blocks_for size ≤ s.vcb.free_blocks :=
    le_trans (blocks_for_le_ceil size h1) hfree
  obtain ⟨e1, e2⟩ := find_empty_spec s.directory 0 i he
  refine ⟨i, _, create_alloc s name size i hf he hi2 hb hlen, hi2, e1, e2, ?_, ?_, ?_⟩
  · simp only [dir_at_set, hi, and_self, if_true]
  · intro k hk
    simp only [dir_at_set, hk, false_and, if_false]
  · simp only [List.length_set]

set_option maxRecDepth 100000 in
/-- C12. Initialization: after `initialize_file_system`, `num_blocks = 512`,
`block_size = 2048`, `bitmap[0]` is marked used, `bitmap[i]` is free for every
`1 ≤ i < 512`, and `free_blocks = 511 = num_blocks - 1`, which is the number of
free bitmap cells. -/
theorem initialize_file_system_post :
    initialize_file_system.vcb.num_blocks = 512 ∧
      initialize_file_system.vcb.block_size = 2048 ∧
      initialize_file_system.vcb.bitmap.length = 512 ∧
      bit_at initialize_file_system.vcb.bitmap 0 = 1 ∧
      (∀ i, 1 ≤ i → i < 512 → bit_at initialize_file_system.vcb.bitmap i = 0) ∧
      initialize_file_system.vcb.free_blocks = 511 ∧
      initialize_file_system.vcb.free_blocks = initialize_file_system.vcb.num_blocks - 1 ∧
      initialize_file_system.vcb.free_blocks =
        clear_count initialize_file_system.vcb.bitmap := by
  have hb : initialize_file_system.vcb.bitmap = 1 :: List.replicate 511 0 := rfl
  refine ⟨rfl, rfl, by decide!, rfl, ?_, rfl, rfl, by decide!⟩
  intro i h1 h2
  obtain ⟨k, rfl⟩ : ∃ k, i = k + 1 := ⟨i - 1, by omega⟩
  rw [hb]
  show (List.replicate 511 (0 : Int)).getD k 0 = 0
  rw [List.getD_eq_getElem?_getD, List.getElem?_replicate_of_lt (by omega)]
  rfl

/-! ## Block 0 -/

theorem create_minus_one (s s1 : FS) (name : String) (size : Int)
    (h : create s name size = some (-1, s1)) : s1 = s := by
  unfold create at h
  cases hf : find_name name s.directory 0 with
  | some j =>
    rw [hf] at h
    simp only [Option.some.injEq, Prod.mk.injEq, true_and] at h
    exact h.symm
  | none =>
    rw [hf] at h
    simp only at h
    split at h
    · simp only [Option.some.injEq, Prod.mk.injEq, true_and] at h
      exact h.symm
    · split at h
      · simp only [Option.some.injEq, Prod.mk.injEq, true_and] at h
        exact h.symm
      · split at h
        · rename_i hne _ hr
          simp only [Option.some.injEq, Prod.mk.injEq] at h
          exact absurd h.1 hne
        · simp at h

theorem bit_at_zero_set (bm : List Int) (k : Nat) (v : Int) (hk : k ≠ 0) :
    bit_at (bm.set k v) 0 = bit_at bm 0 := by
  cases bm with
  | nil => rfl
  | cons b rest =>
    cases k with
    | zero => exact absurd rfl hk
    | succ k => rfl

theorem clear_blocks_bit0 (fuel : Nat) (j : Int) (bm bm1 : List Int) (hj : 1 ≤ j)
    (h : clear_blocks fuel j bm = some bm1) : bit_at bm1 0 = bit_at bm 0 := by
  induction fuel generalizing j bm with
  | zero =>
    simp only [clear_blocks, Option.some.injEq] at h
    rw [h]
  | succ fuel ih =>
    simp only [clear_blocks] at h
    split at h
    · rw [ih (j + 1) _ (by omega) h]
      exact bit_at_zero_set bm j.toNat 0 (by omega)
    · simp at h

theorem dir_at_mem_or_zero (l : List DirectoryEntry) (i : Nat) :
    dir_at l i ∈ l ∨ dir_at l i = DirectoryEntry.zero := by
  unfold dir_at
  rw [List.getD_eq_getElem?_getD]
  cases h : l[i]? with
  | none => right; rfl
  | some e => left; exact List.getElem?_mem h

theorem block0_inv_create (s s1 : FS) (name : String) (size fid : Int)
    (hinv : block0_inv s) (h : create s name size = some (fid, s1)) : block0_inv s1 := by
  by_cases hfid : fid = -1
  · subst hfid
    rw [create_minus_one s s1 name size h]
    exact hinv
  · obtain ⟨i, _, _, _, _, _, _, hs⟩ := create_success s s1 name size fid h hfid
    obtain ⟨hb, hd⟩ := hinv
    rw [hs]
    constructor
    · cases hbm : s.vcb.bitmap with
      | nil => rw [hbm] at hb; exact absurd hb (by decide)
      | cons b0 rest =>
        rw [hbm] at hb
        exact hb
    · intro e he
      rcases List.mem_or_eq_of_mem_set he with h1 | h1
      · exact hd e h1
      · right
        rw [h1]
        show (1 : Int) ≤ (i : Int) + 1
        omega

theorem block0_inv_delete (s s1 : FS) (name : String)
    (hinv : block0_inv s) (h : delete_file s name = some s1) : block0_inv s1 := by
  obtain ⟨hb, hd⟩ := hinv
  unfold delete_file at h
  cases hf : find_name name s.directory 0 with
  | none =>
    rw [hf] at h
    simp only [Option.some.injEq] at h
    rw [← h]
    exact ⟨hb, hd⟩
  | some i =>
    rw [hf] at h
    simp only at h
    have hok : start_ok (dir_at s.directory i) := by
      rcases dir_at_mem_or_zero s.directory i with h1 | h1
      · exact hd _ h1
      · rw [h1]
        left
        exact ⟨rfl, rfl⟩
    split at h
    · simp at h
    · rename_i bm hc
      simp only [Option.some.injEq] at h
      rw [← h]
      constructor
      · show bit_at bm 0 = 1
        rcases hok with ⟨h0, hz⟩ | h1
        · rw [h0, hz] at hc
          have hfuel : (wrap32 (0 + blocks_for 0) - 0).toNat = 0 := by decide
          rw [hfuel] at hc
          simp only [clear_blocks, Option.some.injEq] at hc
          rw [← hc]
          exact hb
        · rw [clear_blocks_bit0 _ _ _ _ h1 hc]
          exact hb
      · intro e he
        rcases List.mem_or_eq_of_mem_set he with h1 | h1
        · exact hd e h1
        · rw [h1]
          exact hok

theorem block0_inv_exec (s s1 : FS) (c : Call) (hinv : block0_inv s)
    (h : exec s c = some s1) : block0_inv s1 := by
  cases c with
  | create filename size =>
    simp only [exec, Option.map_eq_some', Prod.exists] at h
    obtain ⟨fid, s2, h2, h3⟩ := h
    subst h3
    exact block0_inv_create s s2 filename size fid hinv h2
  | open_file filename =>
    simp only [exec, Option.some.injEq] at h
    rw [← h]
    unfold open_file
    split <;> exact hinv
  | close_file fid =>
    simp only [exec, close_file] at h
    split at h
    · simp only [Option.some.injEq] at h
      rw [← h]
      exact hinv
    · simp at h
  | delete_file filename =>
    exact block0_inv_delete s s1 filename hinv h

theorem block0_inv_run (calls : List Call) (s s1 : FS) (hinv : block0_inv s)
    (h : run_calls s calls = some s1) : block0_inv s1 := by
  induction calls generalizing s with
  | nil =>
    simp only [run_calls, Option.some.injEq] at h
    rw [← h]
    exact hinv
  | cons c cs ih =>
    simp only [run_calls, Option.bind_eq_some] at h
    obtain ⟨s2, h2, h3⟩ := h
    exact ih s2 (block0_inv_exec s s2 c hinv h2) h3

set_option maxRecDepth 100000 in
theorem block0_inv_init : block0_inv initialize_file_system := by
  refine ⟨rfl, ?_⟩
  intro e he
  have : e = DirectoryEntry.zero := List.eq_of_mem_replicate he
  rw [this]
  left
  exact ⟨rfl, rfl⟩

/-- Block 0 stays used along every sequence of `create`, `open_file`,
`close_file` and `delete_file` calls in which each call has a result (so every
name copied by `create` has at most 49 bytes; any sizes): in every state reached
from `initialize_file_system`, `bitmap[0]` is marked used. -/
theorem block_zero_never_free (s : FS) (h : Reachable_any s) : bit_at s.vcb.bitmap 0 = 1 := by
  obtain ⟨calls, hr⟩ := h
  exact (block0_inv_run calls initialize_file_system s block0_inv_init hr).1

/-! ## Opening a file -/

theorem find_name_spec (name : String) (l : List DirectoryEntry) (i j : Nat)
    (h : find_name name l i = some j) :
    i ≤ j ∧ (dir_at l (j - i)).filename = name ∧
      ∀ k, k < j - i → (dir_at l k).filename ≠ name := by
  induction l generalizing i with
  | nil => simp [find_name] at h
  | cons e rest ih =>
    by_cases he : e.filename = name
    · simp only [find_name, he, if_true, Option.some.injEq] at h
      subst h
      simp only [Nat.sub_self, dir_at, List.getD_cons_zero]
      exact ⟨Nat.le_refl _, he, fun k hk => absurd hk (Nat.not_lt_zero k)⟩
    · simp only [find_name, he, if_false] at h
      obtain ⟨h0, h1, h2⟩ := ih (i + 1) h
      have hj : j - i = (j - (i + 1)) + 1 := by omega
      rw [hj]
      refine ⟨by omega, by simpa [dir_at] using h1, ?_⟩
      intro k hk
      cases k with
      | zero =>
        simp only [dir_at, List.getD_cons_zero]
        exact he
      | succ k =>
        have := h2 k (by omega)
        simpa [dir_at] using this

theorem dir_at_mem (l : List DirectoryEntry) (i : Nat) (hi : i < l.length) : dir_at l i ∈ l := by
  unfold dir_at
  rw [List.getD_eq_getElem?_getD, List.getElem?_eq_getElem hi]
  exact List.getElem_mem hi

/-- C16 (amended). Open records no handle: for every state with a live entry named
`name` at slot `i`, `open_file(name)` returns the lowest slot index `k ≤ i` whose
filename is `name` and writes no global, so `system_open_table[i]` and
`per_process_open_table[i]` (like the directory, the bitmap and `free_blocks`)
are the same after the call as before. -/
theorem open_file_writes_no_table (s : FS) (name : String) (i : Nat)
    (_hne : name ≠ "") (hi : i < s.directory.length)
    (hname : (dir_at s.directory i).filename = name) :
    ∃ k : Nat, k ≤ i ∧ (dir_at s.directory k).filename = name ∧
      (∀ m, m < k → (dir_at s.directory m).filename ≠ name) ∧
      open_file s name = ((k : Int), s) ∧
      fcb_at (open_file s name).2.system_open_table i = fcb_at s.system_open_table i ∧
      fcb_at (open_file s name).2.per_process_open_table i =
        fcb_at s.per_process_open_table i := by
  cases hf : find_name name s.directory 0 with
  | none =>
    exact absurd hname ((find_name_eq_none_iff name s.directory 0).1 hf _
      (dir_at_mem s.directory i hi))
  | some k =>
    obtain ⟨_, h1, h2⟩ := find_name_spec name s.directory 0 k hf
    have hk : k ≤ i := by
      by_contra hlt
      exact h2 i (by omega) hname
    have ho : open_file s name = ((k : Int), s) := by
      unfold open_file
      rw [hf]
    refine ⟨k, hk, h1, h2, ho, ?_, ?_⟩ <;> rw [ho]

/-- After a successful `create(name, size)` a second `create` of the same name
returns -1 and changes nothing (calls made one after the other). -/
theorem create_again_rejected (s s1 : FS) (name : String) (size size2 fid : Int)
    (h : create s name size = some (fid, s1)) (hfid : fid ≠ -1) :
    create s1 name size2 = some (-1, s1) := by
  obtain ⟨i, hf, _, hi, _, _, _, hs⟩ := create_success s s1 name size fid h hfid
  have hd : s1.directory = s.directory.set i ⟨name, (i : Int) + 1, size⟩ := by rw [hs]
  have h2 := find_name_set name ((i : Int) + 1) size s.directory 0 i hf hi
  unfold create
  rw [hd, h2]

/-! ## More witnesses and evaluations -/

set_option maxRecDepth 100000 in
theorem reachable_st_drift : Reachable st_drift :=
  ⟨ops_drift, by decide!, by decide!⟩

set_option maxRecDepth 100000 in
theorem reachable_st_hole : Reachable st_hole :=
  ⟨[Op.create "a" 2049, Op.create "b" 1, Op.delete_file "b"], by decide!, by decide!⟩

set_option maxRecDepth 100000 in
theorem reachable_st_past_end : Reachable st_past_end :=
  ⟨ops_past_end, by decide!, by decide!⟩

set_option maxRecDepth 100000 in
theorem reachable_any_st_file1 : Reachable_any st_file1 :=
  ⟨[Call.create "file1" 17, Call.open_file "file1", Call.close_file 0], by decide!⟩

set_option maxRecDepth 100000 in
/-- Witness for C11: `create("file2", 17)` on `st_file1` returns slot 1. -/
theorem create_directory_post_witness :
    st_file1.WF ∧ "file2".utf8ByteSize ≤ 49 ∧ ¬ live st_file1 "file2" ∧
      has_empty_slot st_file1 ∧ ceil_blocks 17 ≤ st_file1.vcb.free_blocks ∧
      ∃ (i : Nat) (s1 : FS), create st_file1 "file2" 17 = some ((i : Int), s1) ∧
        i < NUM_BLOCKS ∧ (dir_at st_file1.directory i).filename = "" ∧
        (∀ k, k < i → (dir_at st_file1.directory k).filename ≠ "") ∧
        dir_at s1.directory i = ⟨"file2", (i : Int) + 1, 17⟩ ∧
        (∀ k, k ≠ i → dir_at s1.directory k = dir_at st_file1.directory k) ∧
        s1.directory.length = st_file1.directory.length :=
  ⟨by decide!, by decide!, by decide!, by decide!, by decide!,
    create_directory_post st_file1 "file2" 17 (by decide!) (by decide) (by decide!) (by decide!)
      (by decide!) (by decide) (by decide!)⟩

set_option maxRecDepth 100000 in
/-- C13. Bitmap and count drift apart: in the reachable state `st_drift` the
bitmap has 512 cells of which 509 are clear, while `free_blocks` is 510. -/
theorem free_blocks_count_diverges :
    Reachable st_drift ∧ st_drift.vcb.bitmap.length = 512 ∧
      st_drift.vcb.free_blocks = 510 ∧ clear_count st_drift.vcb.bitmap = 509 :=
  ⟨reachable_st_drift, by decide!, by decide!, by decide!⟩

set_option maxRecDepth 100000 in
/-- C14. A live entry owns a clear block: in the reachable state `st_hole` the
entry `a` of slot 0 is live with `start_block = 1` and 2 blocks, and block 2 of
its range is clear in the bitmap. -/
theorem live_range_has_clear_block :
    Reachable st_hole ∧ dir_at st_hole.directory 0 = ⟨"a", 1, 2049⟩ ∧
      ceil_blocks (dir_at st_hole.directory 0).file_size = 2 ∧
      bit_at st_hole.vcb.bitmap 2 = 0 :=
  ⟨reachable_st_hole, by decide!, by decide!, by decide!⟩

set_option maxRecDepth 100000 in
/-- Example of block 0 staying used: `st_file1` is reached by `create`, `open_file` and
`close_file`, and its block 0 is used. -/
theorem block_zero_never_free_witness :
    Reachable_any st_file1 ∧ bit_at st_file1.vcb.bitmap 0 = 1 :=
  ⟨reachable_any_st_file1, block_zero_never_free st_file1 reachable_any_st_file1⟩

set_option maxRecDepth 100000 in
/-- C16, as stated, fails: in `st_file1` the live entry `file1` of slot 0 has
`file_size = 17` and `start_block = 1`, and after `open_file("file1")` cell 0 of
both open tables is still zero. -/
theorem open_file_leaves_tables_zero :
    dir_at st_file1.directory 0 = ⟨"file1", 1, 17⟩ ∧
      open_file st_file1 "file1" = (0, st_file1) ∧
      fcb_at (open_file st_file1 "file1").2.system_open_table 0 = ⟨0, 0⟩ ∧
      fcb_at (open_file st_file1 "file1").2.per_process_open_table 0 = ⟨0, 0⟩ ∧
      fcb_at (open_file st_file1 "file1").2.system_open_table 0 ≠ ⟨17, 1⟩ ∧
      fcb_at (open_file st_file1 "file1").2.per_process_open_table 0 ≠ ⟨17, 1⟩ :=
  ⟨by decide!, by decide!, by decide!, by decide!, by decide!, by decide!⟩

set_option maxRecDepth 100000 in
/-- Witness for C16 (amended): `open_file("file1")` on `st_file1`. -/
theorem open_file_writes_no_table_witness :
    0 < st_file1.directory.length ∧ (dir_at st_file1.directory 0).filename = "file1" ∧
      ∃ k : Nat, k ≤ 0 ∧ (dir_at st_file1.directory k).filename = "file1" ∧
        (∀ m, m < k → (dir_at st_file1.directory m).filename ≠ "file1") ∧
        open_file st_file1 "file1" = ((k : Int), st_file1) ∧
        fcb_at (open_file st_file1 "file1").2.system_open_table 0 =
          fcb_at st_file1.system_open_table 0 ∧
        fcb_at (open_file st_file1 "file1").2.per_process_open_table 0 =
          fcb_at st_file1.per_process_open_table 0 :=
  ⟨by decide!, by decide!,
    open_file_writes_no_table st_file1 "file1" 0 (by decide) (by decide!) (by decide!)⟩

set_option maxRecDepth 100000 in
/-- C18. The largest sizes are not rejected: on the initial state
(`free_blocks = 511`, `f` not live) `size = 2^31 - 1` makes `size + 2047` wrap to
a negative number, `blocks_needed` is -1048575, the free-block test passes, and
`create("f", 2147483647)` returns 0, marks all 511 free blocks and leaves
`free_blocks = 0`. -/
theorem create_wrapped_size_not_rejected :
    0 ≤ initialize_file_system.vcb.free_blocks ∧
      initialize_file_system.vcb.free_blocks ≤ 511 ∧
      ¬ live initialize_file_system "f" ∧ blocks_for 2147483647 = -1048575 ∧
      ∃ s1, create initialize_file_system "f" 2147483647 = some (0, s1) ∧
        s1.vcb.free_blocks = 0 ∧ s1.vcb.bitmap = List.replicate 512 1 ∧
        dir_at s1.directory 0 = ⟨"f", 1, 2147483647⟩ :=
  ⟨by decide!, by decide!, by decide!, by decide!, _, rfl, by decide!, by decide!, by decide!⟩

set_option maxRecDepth 100000 in
/-- C19. A live entry reaches past the bitmap: in the reachable state
`st_past_end` the live entry `x` of slot 1 has `start_block = 2` and 511 blocks,
so its range ends at 513, and `delete_file("x")` writes `bitmap[512]`. -/
theorem live_range_past_end :
    Reachable st_past_end ∧ dir_at st_past_end.directory 1 = ⟨"x", 2, 1046528⟩ ∧
      (dir_at st_past_end.directory 1).start_block +
        ceil_blocks (dir_at st_past_end.directory 1).file_size = 513 ∧
      delete_file st_past_end "x" = none :=
  ⟨reachable_st_past_end, by decide!, by decide!, by decide!⟩

/-! ## Names that do not fit the field -/

/-- A `create` that reaches the copy with a name of 50 bytes or more has no
result: `strcpy` writes `strlen + 1` bytes into the 50-byte field. -/
theorem create_oversized_name (s : FS) (name : String) (size : Int)
    (hf : find_name name s.directory 0 = none) (hb : blocks_for size ≤ s.vcb.free_blocks)
    (hlen : 50 ≤ name.utf8ByteSize) : create s name size = none := by
  have h2 : ¬ (blocks_for size > s.vcb.free_blocks) := by omega
  unfold create
  rw [hf]
  cases he : find_empty s.directory 0 with
  | none =>
    have h5 : ¬ ((-5 : Int) = -1) := by decide
    have h6 : ¬ (0 ≤ (-5 : Int) ∧ (-5 : Int) < (NUM_BLOCKS : Int) ∧
        name.utf8ByteSize + 1 ≤ FILENAME_SIZE) := fun h => absurd h.1 (by decide)
    simp only [h2, h5, h6, if_false]
  | some i =>
    have h5 : ¬ ((i : Int) = -1) := by omega
    have h6 : ¬ (0 ≤ (i : Int) ∧ (i : Int) < (NUM_BLOCKS : Int) ∧
        name.utf8ByteSize + 1 ≤ FILENAME_SIZE) := by
      intro h
      have := h.2.2
      unfold FILENAME_SIZE at this
      omega
    simp only [h2, h5, h6, if_false]

/-- A successful `create` copied a name of at most 49 bytes. -/
theorem create_success_fits (s s1 : FS) (name : String) (size fid : Int)
    (h : create s name size = some (fid, s1)) (hfid : fid ≠ -1) :
    name.utf8ByteSize ≤ 49 := by
  obtain ⟨i, hf, _, _, _, _, hb, _⟩ := create_success s s1 name size fid h hfid
  by_contra hlen
  rw [create_oversized_name s name size hf hb (by omega)] at h
  exact Option.noConfusion h

set_option maxRecDepth 100000 in
/-- C10. The identifier is not kept for a name that does not fit the field: on
the initial state `create(name52, 1)` with the non-empty, not live 52-byte name
`name52` passes every test and copies 53 bytes into `char filename[50]`, so the
call has no defined result (`none`) and `open_file(name52)` is not bound to
return what `create` returned; with the 49-byte `name49` the same calls return
0 and 0. -/
theorem create_oversized_name_undefined :
    name52 ≠ "" ∧ name52.utf8ByteSize = 52 ∧ ¬ live initialize_file_system name52 ∧
      has_empty_slot initialize_file_system ∧
      blocks_for 1 ≤ initialize_file_system.vcb.free_blocks ∧
      create initialize_file_system name52 1 = none ∧
      name49.utf8ByteSize = 49 ∧
      ∃ s1, create initialize_file_system name49 1 = some (0, s1) ∧
        open_file s1 name49 = (0, s1) :=
  ⟨by decide!, by decide!, by decide!, by decide!, by decide!, by decide!, by decide!,
    _, rfl, by decide!⟩

set_option maxRecDepth 100000 in
/-- C15. Block 0 is not protected from a name that does not fit the field:
`create("p", 1)`, `create("q", 1)`, `delete_file("p")` reach `st_pq`, where block 0
is used, slot 0 is empty and `q` is live in slot 1 with `start_block = 2`; the
next call `create(name112, 1)` copies 113 bytes from slot 0 over slot 1 and has
no defined result (`none`), so nothing keeps `bitmap[0]` used along the
sequence that ends with `delete_file(name52)`. -/
theorem run_oversized_name_undefined :
    run_calls initialize_file_system
        [Call.create "p" 1, Call.create "q" 1, Call.delete_file "p"] = some st_pq ∧
      bit_at st_pq.vcb.bitmap 0 = 1 ∧ dir_at st_pq.directory 1 = ⟨"q", 2, 1⟩ ∧
      find_empty st_pq.directory 0 = some 0 ∧ name112.utf8ByteSize = 112 ∧
      create st_pq name112 1 = none ∧
      run_calls initialize_file_system
        [Call.create "p" 1, Call.create "q" 1, Call.delete_file "p",
          Call.create name112 1, Call.delete_file name52] = none :=
  ⟨by decide!, by decide!, by decide!, by decide!, by decide!, by decide!, by decide!⟩

set_option maxRecDepth 100000 in
/-- A name of 21 characters can still be too long for the field: `name_euro21`
has 21 code points and 63 bytes, and `create` has no result for it. -/
theorem create_multibyte_name_undefined :
    name_euro21.length = 21 ∧ name_euro21.utf8ByteSize = 63 ∧
      create initialize_file_system name_euro21 1 = none :=
  ⟨by decide!, by decide!, by decide!⟩

end SimpleFS
